import Mathlib

/-!
Verification of the tiered PDF purchase-order extraction engine.

This file gives a shallow embedding, in Lean 4, of the extraction and
validation core of the pdf-converter web app:

* `src/core/parser.py` — header-metadata extraction, the position-based,
  table-detection and regex extraction tiers, deduplication, and the
  tier orchestrator `extract_table_rows`;
* `src/core/validator.py` — `_to_money`, `_upc_ok` and `run_qa_checks`;
* `src/app.py` — the caller-facing wrapper `extract_data_from_pdf`.

Modelling conventions:

* Python strings are Lean `String`s; most string work is done on `List Char`.
  Character classes (`\s`, `\d`, `\w`) are modelled over ASCII, which covers
  every string the engine manipulates.
* Python floats are modelled as rationals (`ℚ`); `round(x, 2)` is modelled
  as exact round-half-even at two decimals (`pyRound2`).  No claim below
  depends on binary floating-point artifacts.
* I/O (pdfplumber) is cut at the data boundary: functions take the page
  texts / word boxes / table cells that the library would return.
* A fallible Python function is an `Except String` value; an uncaught
  exception is `.error msg`.
* Python dicts that the code iterates over (the column-window dict `col_x`,
  the per-band `cells` dict) are association lists in insertion order,
  which is exactly Python dict iteration order.
* A tier result in `parser.py` is the Python list `[HEADER] + items`; we
  represent it by its item rows, so its Python `len` is `items.length + 1`.

Regular expressions are compiled by hand into executable matchers on
`List Char`.  Where Python backtracking is forced (the regex tier), the
matchers implement the same preference order as the `re` engine; each
matcher's doc comment names the pattern it implements.
-/

/-! # Character classes and Python string primitives -/

/-- Python `\s` (ASCII range): space, tab, newline, carriage return,
vertical tab, form feed. -/
def isPySpace (c : Char) : Bool :=
  c = ' ' ∨ c = '\t' ∨ c = '\n' ∨ c = '\r' ∨ c = '\x0b' ∨ c = '\x0c'

/-- Python `\d` (ASCII range). -/
def isPyDigit (c : Char) : Bool := '0' ≤ c ∧ c ≤ '9'

/-- ASCII uppercase letter, the class `[A-Z]`. -/
def isUpperAZ (c : Char) : Bool := 'A' ≤ c ∧ c ≤ 'Z'

/-- ASCII lowercase letter. -/
def isLowerAZ (c : Char) : Bool := 'a' ≤ c ∧ c ≤ 'z'

/-- The class `[A-Z0-9]`. -/
def isUpperOrDigit (c : Char) : Bool := isUpperAZ c ∨ isPyDigit c

/-- Python `\w` (ASCII range): letters, digits, underscore. -/
def isPyWord (c : Char) : Bool :=
  isUpperAZ c ∨ isLowerAZ c ∨ isPyDigit c ∨ c = '_'

/-- Numeric value of a digit character. -/
def digitVal (c : Char) : Nat := c.toNat - '0'.toNat

/-- Python `str.strip()` on a character list. -/
def pyStripL (cs : List Char) : List Char :=
  (cs.dropWhile isPySpace).reverse.dropWhile isPySpace |>.reverse

/-- Python `str.strip()` on a `String`. -/
def pyStrip (s : String) : String := (pyStripL s.toList).asString

/-- Collapse each run of whitespace into a single space once every
whitespace character has been mapped to a space (helper for `_clean_ws`
and for `re.sub(r"\s+", " ", text)`). -/
def squeezeSpaces : List Char → List Char
  | [] => []
  | [c] => [c]
  | a :: b :: rest =>
    if a = ' ' ∧ b = ' ' then squeezeSpaces (b :: rest)
    else a :: squeezeSpaces (b :: rest)

/-- Python `re.sub(r"\s+", " ", s)`: every maximal whitespace run becomes
one space. -/
def subWsSpace (cs : List Char) : List Char :=
  squeezeSpaces (cs.map (fun c => if isPySpace c then ' ' else c))

/-- parser.py `_clean_ws`: `re.sub(r"\s+", " ", (s or "").strip())`. -/
def _clean_ws (s : String) : String :=
  (subWsSpace (pyStripL s.toList)).asString

/-- Case-insensitive uppercase mapping for ASCII letters (used by the
`re.I` matchers and by `str.upper()` on the strings the engine sees). -/
def upperAscii (c : Char) : Char :=
  if isLowerAZ c then Char.ofNat (c.toNat - 32) else c

/-! # Python numeric coercion -/

/-- Value of a digit run as a natural number. -/
def digitsVal (ds : List Char) : Nat :=
  ds.foldl (fun acc c => 10 * acc + digitVal c) 0

/-- Python `int(n)` on a string already filtered to `[0-9-]` by `_to_int`:
an optional leading minus followed by at least one digit; anything else
raises `ValueError` (here: `none`). -/
def pyIntOfFiltered (cs : List Char) : Option Int :=
  match cs with
  | '-' :: rest =>
    if rest ≠ [] ∧ rest.all isPyDigit then some (-(digitsVal rest : Int)) else none
  | _ =>
    if cs ≠ [] ∧ cs.all isPyDigit then some (digitsVal cs : Int) else none

/-- parser.py `_to_int`: keep only `[0-9-]` characters and apply `int`;
empty input or parse failure gives `None`. -/
def _to_int (s : String) : Option Int :=
  if s = "" then none
  else
    let n := s.toList.filter (fun c => isPyDigit c ∨ c = '-')
    if n = [] ∨ n = ['-'] then none else pyIntOfFiltered n

/-- Mantissa and fractional part of a decimal literal: digits, optional
point, digits; at least one digit overall. Returns the value as ℚ. -/
def decMantissa (cs : List Char) : Option (ℚ × List Char) :=
  let intPart := cs.takeWhile isPyDigit
  let rest1 := cs.drop intPart.length
  match rest1 with
  | '.' :: rest2 =>
    let fracPart := rest2.takeWhile isPyDigit
    let rest3 := rest2.drop fracPart.length
    if intPart = [] ∧ fracPart = [] then none
    else some (((digitsVal intPart : ℚ) +
      (digitsVal fracPart : ℚ) / ((10 : ℚ) ^ fracPart.length)), rest3)
  | _ =>
    if intPart = [] then none else some ((digitsVal intPart : ℚ), rest1)

/-- Python `float(s)` on an already-stripped string, for the decimal forms
the engine produces: optional sign, decimal mantissa, optional exponent.
(`inf`/`nan`/underscore forms are not modelled; the engine never builds
them.) -/
def pyFloat (s : String) : Option ℚ :=
  let step (cs : List Char) : Option ℚ :=
    match decMantissa cs with
    | none => none
    | some (m, rest) =>
      match rest with
      | [] => some m
      | e :: rest2 =>
        if e = 'e' ∨ e = 'E' then
          let (sgn, rest3) : (Bool × List Char) :=
            match rest2 with
            | '-' :: r => (true, r)
            | '+' :: r => (false, r)
            | r => (false, r)
          if rest3 ≠ [] ∧ rest3.all isPyDigit then
            let k := digitsVal rest3
            some (if sgn then m / ((10 : ℚ) ^ k) else m * ((10 : ℚ) ^ k))
          else none
        else none
  match s.toList with
  | '-' :: rest => (step rest).map (fun q => -q)
  | '+' :: rest => step rest
  | cs => step cs

/-- parser.py `_to_float`: drop every `$` and `,`, strip, drop a leading
`USD` (case-insensitively), strip again, then `float`; `None` on failure
or falsy input. -/
def _to_float (s : String) : Option ℚ :=
  if s = "" then none
  else
    let s2 := (pyStripL (s.toList.filter (fun c => ¬ (c = '$' ∨ c = ',')))).asString
    let s3 :=
      if (s2.toList.map upperAscii).take 3 = ['U', 'S', 'D'] then
        (pyStripL (s2.toList.drop 3)).asString
      else s2
    pyFloat s3

/-- Round-half-even of a rational to an integer (Python `round(x)` on the
exact value). -/
def roundHalfEven (x : ℚ) : Int :=
  let f := ⌊x⌋
  let d := x - (f : ℚ)
  if d < 1/2 then f
  else if 1/2 < d then f + 1
  else if f % 2 = 0 then f else f + 1

/-- Python `round(x, 2)` modelled exactly on rationals. -/
def pyRound2 (x : ℚ) : ℚ := (roundHalfEven (x * 100) : ℚ) / 100

/-! # Line-item rows

A parsed row is the 9-element Python list
`[Qty, Item_SKU, Dev_Code, UPC, HTS_Code, Brand, Description, Rate, Amount]`
where `Qty` is an int or `""` and `Rate`/`Amount` are floats or `""`; the
`Option` fields model the `x if x is not None else ""` convention. -/

structure Row where
  qty : Option Int
  sku : String
  dev : String
  upc : String
  hts : String
  brand : String
  desc : String
  rate : Option ℚ
  amount : Option ℚ
deriving DecidableEq, Repr

/-- The canonical 9-name header `HEADER` of parser.py. -/
def HEADER : List String :=
  ["Qty", "Item_SKU", "Dev_Code", "UPC", "HTS_Code", "Brand", "Description",
   "Rate", "Amount"]

/-! # Deduplication (`parser._dedupe`) -/

/-- The key string built at parser.py:710:
`f-string of str(r[1]).strip(), a pipe, str(r[3]).strip()` where `r[1]` is
the SKU and `r[3]` the UPC cell. -/
def dedupeKey (r : Row) : String := pyStrip r.sku ++ "|" ++ pyStrip r.upc

/-- The seen-set loop of `_dedupe`, with the Python `set` as the list of
keys added so far. -/
def dedupeGo (seen : List String) : List Row → List Row
  | [] => []
  | r :: rest =>
    if dedupeKey r ∈ seen then dedupeGo seen rest
    else r :: dedupeGo (dedupeKey r :: seen) rest

/-- parser.py `_dedupe`: drop rows whose key was already seen, preserving
order. -/
def _dedupe (rows : List Row) : List Row := dedupeGo [] rows

/-- Specification written from the spec text of §4.6: keep the first
occurrence per trimmed `(sku, upc)` PAIR, preserving encounter order.
(Comparison definition for claim C4; the source keys on the joined
string `dedupeKey` instead.) -/
def dedupePairSpec : List Row → List Row
  | [] => []
  | r :: rest =>
    r :: dedupePairSpec (rest.filter
      (fun x => ¬ (pyStrip x.sku = pyStrip r.sku ∧ pyStrip x.upc = pyStrip r.upc)))
termination_by l => l.length
decreasing_by
  simp only [List.length_cons]
  exact Nat.lt_succ_of_le (List.length_filter_le _ _)

/-- First-occurrence-per-`dedupeKey` recursion, the string-keyed analogue
of `dedupePairSpec`; `_dedupe` is proved equal to it below. -/
def dedupeStrSpec : List Row → List Row
  | [] => []
  | r :: rest =>
    r :: dedupeStrSpec (rest.filter (fun x => ¬ (dedupeKey x = dedupeKey r)))
termination_by l => l.length
decreasing_by
  simp only [List.length_cons]
  exact Nat.lt_succ_of_le (List.length_filter_le _ _)

/-! # Orchestrator (`parser.extract_table_rows`) -/

/-- parser.py `_is_reasonable`: the candidate is a list (always true here)
of at least 5 rows; the Python list is `[HEADER] + items`, so its length
is `items.length + 1`. -/
def _is_reasonable (items : List Row) : Bool := decide (5 ≤ items.length + 1)

/-- One `try: rows = tier(...)  if _is_reasonable(rows): return rows
except: pass` step of `extract_table_rows`: an accepted candidate, or
`none` when the tier raised or its candidate fails the size check. -/
def acceptTier (t : Except String (List Row)) : Option (List Row) :=
  match t with
  | .ok items => if _is_reasonable items then some items else none
  | .error _ => none

/-- parser.py `extract_table_rows`, over the outcomes of the three tiers
(position-based, table-detection, regex, in that order): first accepted
candidate wins; if none is accepted the result is `[HEADER]` alone
(no item rows). -/
def extract_table_rows (t1 t2 t3 : Except String (List Row)) : List Row :=
  match acceptTier t1 with
  | some items => items
  | none =>
    match acceptTier t2 with
    | some items => items
    | none =>
      match acceptTier t3 with
      | some items => items
      | none => []

/-! # Caller-facing wrapper (`app.extract_data_from_pdf`) -/

/-- Header-metadata record of `parser.extract_header_meta`. -/
structure HeaderMeta where
  po_number : String
  vendor_number : String
  ship_by_date : String
  payment_terms : String
  total : String
  page_count : Nat
deriving DecidableEq, Repr

/-- app.py `extract_data_from_pdf` (src/app.py:34): given the metadata and
the accepted extraction result `[HEADER] + items`, raise
`ValueError("No data rows found in PDF")` when the result is falsy or has
length at most 1 (`not rows or len(rows) <= 1`), else return both. -/
def extract_data_from_pdf (meta : HeaderMeta) (items : List Row) :
    Except String (HeaderMeta × List Row) :=
  if items.length + 1 ≤ 1 then .error "No data rows found in PDF"
  else .ok (meta, items)

/-! # UPC validation (`validator._upc_ok`) -/

/-- Python slice `l[idxs]` generalized to an explicit index list (used to
spell out `ds[0:11:2]` and `ds[1:11:2]` on the 12-digit list). -/
def pySliceIdx (l : List Nat) (idxs : List Nat) : List Nat :=
  idxs.filterMap (fun i => l.get? i)

/-- validator.py `_upc_ok`: `re.fullmatch(r"\d{12}", str(upc))`, then the
UPC-A check digit: `(10 - ((sum(ds[0:11:2])*3 + sum(ds[1:11:2])) % 10)) % 10`
must equal `ds[-1]`. -/
def _upc_ok (upc : String) : Bool :=
  let cs := upc.toList
  if cs.length = 12 ∧ cs.all isPyDigit then
    let ds := cs.map digitVal
    let evens := pySliceIdx ds [0, 2, 4, 6, 8, 10]
    let odds := pySliceIdx ds [1, 3, 5, 7, 9]
    let check := (10 - ((evens.sum * 3 + odds.sum) % 10)) % 10
    decide (some check = ds.getLast?)
  else false

/-- The check-digit condition exactly as claim C7 words it, over the digit
sequence `d0..d11` accessed positionally. -/
def upcSpec (upc : String) : Bool :=
  match upc.toList with
  | [c0, c1, c2, c3, c4, c5, c6, c7, c8, c9, c10, c11] =>
    if [c0, c1, c2, c3, c4, c5, c6, c7, c8, c9, c10, c11].all isPyDigit then
      let d := digitVal
      decide ((10 - (((d c0 + d c2 + d c4 + d c6 + d c8 + d c10) * 3 +
        (d c1 + d c3 + d c5 + d c7 + d c9)) % 10)) % 10 = d c11)
    else false
  | _ => false

/-! # Currency and digit-run matchers -/

/-- Fullmatch of `^\d{6,12}$` (parser.py `_HTS_NUM_RE`). -/
def htsNumFull (s : String) : Bool :=
  let cs := s.toList
  6 ≤ cs.length ∧ cs.length ≤ 12 ∧ cs.all isPyDigit

/-- Whether the head of a character list satisfies `p`. -/
def headIs (p : Char → Bool) : List Char → Bool
  | c :: _ => p c
  | [] => false

/-- Require `\.\d\d` and stop (the money pattern ends after the two
decimal digits); `acc` is what the numeric body matched so far. -/
def moneyFinish (acc rest : List Char) : Option (List Char × List Char) :=
  match rest with
  | '.' :: a :: b :: r =>
    if isPyDigit a ∧ isPyDigit b then some (acc ++ ['.', a, b], r) else none
  | _ => none

/-- The `(?:,\d{3})*` loop of the money pattern followed by `moneyFinish`.
A comma group is consumed only when a fourth digit does not follow (when
one does, neither this group count nor a smaller one can reach the
`\.\d{2}` tail, so `re` backtracking also fails). -/
def moneyGroups (acc rest : List Char) : Option (List Char × List Char) :=
  match rest with
  | ',' :: a :: b :: c :: r2 =>
    if isPyDigit a ∧ isPyDigit b ∧ isPyDigit c ∧ ¬ headIs isPyDigit r2 then
      moneyGroups (acc ++ [',', a, b, c]) r2
    else moneyFinish acc rest
  | _ => moneyFinish acc rest

/-- After the optional `USD\s*` and `\$?` prefixes, the numeric body
`\d{1,3}(?:,\d{3})*\.\d{2}`: a 1-3 digit run, comma groups of exactly
three digits, a point, two digits; returns the consumed characters and
the rest. The greedy behaviour of `re` is deterministic here (a longer
initial digit run or a dropped comma group always leaves a digit or a
comma where `\.` is required), so a single pass is faithful. -/
def moneyBodyAt (cs : List Char) : Option (List Char × List Char) :=
  let run := cs.takeWhile isPyDigit
  if 1 ≤ run.length ∧ run.length ≤ 3 then
    moneyGroups run (cs.drop run.length)
  else none

/-- Match of the parser money pattern `(?:USD\s*)?\$?\d{1,3}(?:,\d{3})*\.\d{2}`
anchored at the head of `cs`; returns the matched text and the rest. -/
def moneyAt (cs : List Char) : Option (List Char × List Char) :=
  let (pre1, rest1) : List Char × List Char :=
    match cs with
    | 'U' :: 'S' :: 'D' :: r =>
      let ws := r.takeWhile isPySpace
      (['U', 'S', 'D'] ++ ws, r.drop ws.length)
    | _ => ([], cs)
  let (pre2, rest2) : List Char × List Char :=
    match rest1 with
    | '$' :: r => (pre1 ++ ['$'], r)
    | _ => (pre1, rest1)
  match moneyBodyAt rest2 with
  | some (body, rest3) => some (pre2 ++ body, rest3)
  | none => none

/-- Fullmatch of the money pattern (`_MONEY_RE.fullmatch` in the
position tier). -/
def moneyFull (s : String) : Bool :=
  match moneyAt s.toList with
  | some (_, rest) => rest.isEmpty
  | none => false

/-- Leftmost match of `\b\d{lo,hi}\b`: the first maximal digit run whose
neighbours are not word characters and whose length lies in `[lo, hi]`
(parser.py `_first_match` with the UPC/HTS digit patterns). `prev` is the
character before the current position. -/
def firstDigitRunFrom (lo hi : Nat) (prev : Option Char) :
    List Char → Option String
  | [] => none
  | c :: rest =>
    if isPyDigit c ∧ ¬ (prev.map isPyWord).getD false then
      let run := c :: rest.takeWhile isPyDigit
      let after := rest.drop (run.length - 1)
      if lo ≤ run.length ∧ run.length ≤ hi ∧ ¬ headIs isPyWord after then
        some run.asString
      else firstDigitRunFrom lo hi (some c) rest
    else firstDigitRunFrom lo hi (some c) rest

/-- `_first_match(s, pattern)` for the two digit-run patterns
`\b\d{8,14}\b` (UPC) and `\b\d{8,12}\b` (HTS): the match, or `""`. -/
def firstDigitRun (lo hi : Nat) (s : String) : String :=
  (firstDigitRunFrom lo hi none s.toList).getD ""

/-! # Column geometry and the position-based band assembly -/

/-- A pdfplumber word box. -/
structure Word where
  x0 : ℚ
  x1 : ℚ
  top : ℚ
  bottom : ℚ
  text : String
deriving DecidableEq, Repr

/-- The column-window dict `col_x`: name to `(left, right)` interval, in
Python dict insertion order. -/
abbrev ColX := List (String × ℚ × ℚ)

/-- parser.py `_which_col`: the first window (in dict order) containing
`x`, else `None`. -/
def _which_col (x : ℚ) (colx : ColX) : Option String :=
  match colx with
  | [] => none
  | (name, l, r) :: rest =>
    if l ≤ x ∧ x ≤ r then some name else _which_col x rest

/-- The reclassification at parser.py:223-226: an `hts` token that is not
a 6-12 digit run, or a `rate`/`amount` token that is not a full currency
match, moves to the brand/description bucket. -/
def reclassify (col : Option String) (tok : String) : Option String :=
  if col = some "hts" ∧ ¬ htsNumFull tok then some "branddesc"
  else if (col = some "rate" ∨ col = some "amount") ∧ ¬ moneyFull tok then
    some "branddesc"
  else col

/-- The empty `cells` dict `{k: [] for k in col_x.keys()}`. -/
def emptyCells (colx : ColX) : List (String × List String) :=
  colx.map (fun p => (p.1, ([] : List String)))

/-- `cells[col].append(tok)` on the association-list representation. -/
def cellsAppend (cells : List (String × List String)) (k tok : String) :
    List (String × List String) :=
  cells.map (fun p => if p.1 = k then (p.1, p.2 ++ [tok]) else p)

/-- Stable insertion into a list already sorted by `x0`. -/
def insertByX0 (w : Word) : List Word → List Word
  | [] => [w]
  | y :: ys => if w.x0 ≤ y.x0 then w :: y :: ys else y :: insertByX0 w ys

/-- `arr.sort(key=lambda d: d["x0"])` — a stable sort by `x0` (stable
sorts by the same key agree, so insertion sort is faithful to Timsort). -/
def sortByX0 : List Word → List Word
  | [] => []
  | w :: ws => insertByX0 w (sortByX0 ws)

/-- The per-band cell assembly of parser.py:216-229.  NOTE the source
indentation: the reclassification and append block sits OUTSIDE the
`for w in arr` loop, so `col`/`tok` hold the values of the band's final
word (in `x0` order) and only that single token can reach `cells`; the
`if col:` guard also drops a falsy (`None` or empty-name) column. -/
def bandCells (colx : ColX) (arr : List Word) :
    List (String × List String) :=
  match (sortByX0 arr).getLast? with
  | none => emptyCells colx
  | some w =>
    let cx := (w.x0 + w.x1) / 2
    let tok := w.text
    match reclassify (_which_col cx colx) tok with
    | some c =>
      if c ≠ "" then cellsAppend (emptyCells colx) c tok
      else emptyCells colx
    | none => emptyCells colx

/-! # Row finalization shared by the three tiers -/

/-- The `if amount is None and (qty is not None) and (rate is not None):
amount = round(qty * rate, 2)` block, repeated verbatim in all three
tiers (parser.py:280-282, 517-518, 578-579). -/
def finalizeAmount (qty : Option Int) (rate amount : Option ℚ) : Option ℚ :=
  match amount, qty, rate with
  | none, some q, some r => some (pyRound2 ((q : ℚ) * r))
  | a, _, _ => a

/-- Python `s.split(" ", 1)`: the part before the first space and, when a
space exists, the remainder after it. -/
def splitFirstSpace : List Char → List Char × Option (List Char)
  | [] => ([], none)
  | c :: rest =>
    if c = ' ' then ([], some rest)
    else
      let p := splitFirstSpace rest
      (c :: p.1, p.2)

/-- parser.py `_split_brand_desc`: clean, then split at the first space
into brand and description (`parts[1]` when present, else `""`). -/
def _split_brand_desc (s : String) : String × String :=
  let s2 := _clean_ws s
  if s2 = "" then ("", "")
  else
    let p := splitFirstSpace s2.toList
    (p.1.asString, ((p.2.map List.asString).getD ""))

/-- Row emission of the position tier, parser.py:277-302: parse qty,
derive a missing amount from `qty*rate`, split brand/description at the
first space (inline at 284-289), and build the 9-cell row. -/
def posFinishRow (qty_s sku_s dev_s upc_s hts_s branddesc : String)
    (rate amount : Option ℚ) : Row :=
  let qty := _to_int qty_s
  let amount2 := finalizeAmount qty rate amount
  let bd : String × String :=
    if branddesc = "" then ("", branddesc)
    else
      let p := splitFirstSpace branddesc.toList
      (p.1.asString, ((p.2.map List.asString).getD ""))
  { qty := qty, sku := sku_s, dev := dev_s, upc := upc_s, hts := hts_s,
    brand := bd.1, desc := bd.2, rate := rate, amount := amount2 }

/-! # Table-detection tier row mapping -/

/-- parser.py `_safe_pick`: Python `row[idx]` with negative indices
counting from the end; out-of-range access raises and is caught,
giving `""`; in-range cells are cleaned. -/
def _safe_pick (row : List String) (idx : Int) : String :=
  let i : Int := if idx < 0 then idx + row.length else idx
  if 0 ≤ i ∧ i < (row.length : Int) then
    _clean_ws ((row.get? i.toNat).getD "")
  else ""

/-- The per-row mapping of the table tier, parser.py:501-532: positional
columns, regex recovery of UPC/HTS from the middle cells, brand/desc from
cells 5-6, rate/amount from the last two cells, and the shared amount
derivation. -/
def tableRowOf (r : List String) : Row :=
  let qty := _to_int (_safe_pick r 0)
  let sku := _safe_pick r 1
  let dev := _safe_pick r 2
  let upc := firstDigitRun 8 14 (_safe_pick r 3 ++ " " ++ _safe_pick r 4)
  let hts := firstDigitRun 8 12 (_safe_pick r 4 ++ " " ++ _safe_pick r 5)
  let branddesc := _clean_ws (pyStrip (_safe_pick r 5 ++ " " ++ _safe_pick r 6))
  let bd := _split_brand_desc branddesc
  let rate := _to_float (_safe_pick r (-2))
  let amount0 := _to_float (_safe_pick r (-1))
  let amount := finalizeAmount qty rate amount0
  { qty := qty, sku := sku, dev := dev, upc := upc, hts := hts,
    brand := bd.1, desc := bd.2, rate := rate, amount := amount }

/-! # Regex fallback tier (`parser._extract_via_regex`)

The Python pattern, applied by `finditer` to the whitespace-collapsed
concatenation of all page text:

`(?P<qty>\d{1,4})\s+`
`(?P<sku>[A-Z0-9]{1}[A-Z]{2}\d{4}-\d{2}-[A-Z]\d{4}-[A-Z0-9]{5})\s+`
`(?P<dev>[A-Z0-9]{2,})?\s*(?P<upc>\d{8,14})\s+(?P<branddesc>.+?)\s+`
`(?P<rate>MONEY)\s+(?P<amount>MONEY)`.
-/

/-- `\s+`: at least one whitespace character, consumed greedily. -/
def wsPlus (cs : List Char) : Option (List Char) :=
  if headIs isPySpace cs then some (cs.dropWhile isPySpace) else none

/-- Take exactly `n` characters all satisfying `p`. -/
def takeClass (p : Char → Bool) : Nat → List Char →
    Option (List Char × List Char)
  | 0, cs => some ([], cs)
  | n + 1, c :: rest =>
    if p c then
      match takeClass p n rest with
      | some (t, r) => some (c :: t, r)
      | none => none
    else none
  | _ + 1, [] => none

/-- A literal character. -/
def litChar (c : Char) (cs : List Char) : Option (List Char) :=
  match cs with
  | x :: rest => if x = c then some rest else none
  | [] => none

/-- The fixed-shape SKU group
`[A-Z0-9]{1}[A-Z]{2}\d{4}-\d{2}-[A-Z]\d{4}-[A-Z0-9]{5}`; returns the
matched 22 characters and the rest. -/
def matchSkuAt (cs : List Char) : Option (List Char × List Char) :=
  match takeClass isUpperOrDigit 1 cs with
  | none => none
  | some (a1, r1) =>
  match takeClass isUpperAZ 2 r1 with
  | none => none
  | some (a2, r2) =>
  match takeClass isPyDigit 4 r2 with
  | none => none
  | some (a3, r3) =>
  match litChar '-' r3 with
  | none => none
  | some r4 =>
  match takeClass isPyDigit 2 r4 with
  | none => none
  | some (a5, r5) =>
  match litChar '-' r5 with
  | none => none
  | some r6 =>
  match takeClass isUpperAZ 1 r6 with
  | none => none
  | some (a7, r7) =>
  match takeClass isPyDigit 4 r7 with
  | none => none
  | some (a8, r8) =>
  match litChar '-' r8 with
  | none => none
  | some r9 =>
  match takeClass isUpperOrDigit 5 r9 with
  | none => none
  | some (a10, r10) =>
    some (a1 ++ a2 ++ a3 ++ ['-'] ++ a5 ++ ['-'] ++ a7 ++ a8 ++ ['-'] ++ a10, r10)

/-- The groups captured by one match of the item pattern. -/
structure ItemGroups where
  qty : List Char
  sku : List Char
  dev : Option (List Char)
  upc : List Char
  branddesc : List Char
  rate : List Char
  amount : List Char
deriving DecidableEq, Repr

/-- The `\s+rate\s+amount` continuation after a candidate brand/description
`acc`: only attempted once `acc` is non-empty (`.+?` needs one character). -/
def bdTail (acc cs : List Char) :
    Option (List Char × List Char × List Char) :=
  if acc ≠ [] then
    match wsPlus cs with
    | none => none
    | some cs1 =>
      match moneyAt cs1 with
      | none => none
      | some (rate, cs2) =>
        match wsPlus cs2 with
        | none => none
        | some cs3 =>
          match moneyAt cs3 with
          | none => none
          | some (amount, cs4) => some (rate, amount, cs4)
  else none

/-- The lazy `(?P<branddesc>.+?)\s+rate\s+amount` tail: try the shortest
brand/description first (one character minimum, `.` never matches a
newline), extending one character at a time exactly as `re` backtracks a
lazy group. Returns branddesc, rate, amount and the rest after the
match. (On an empty remainder the `\s+` continuation fails, so the
answer is `none`.) -/
def bdLoop (acc : List Char) :
    List Char → Option (List Char × List Char × List Char × List Char)
  | [] => none
  | c :: rest =>
    match bdTail acc (c :: rest) with
    | some (rate, amount, after) => some (acc, rate, amount, after)
    | none =>
      if c = '\n' then none else bdLoop (acc ++ [c]) rest

/-- One dev-length candidate of `(?P<dev>[A-Z0-9]{2,})?\s*` followed by
the rest of the pattern: `dev` is the already-captured group (or `None`),
`cs` the position after it. -/
def itemTailAt (dev : Option (List Char)) (cs : List Char) :
    Option (Option (List Char) × List Char × List Char × List Char ×
      List Char × List Char) :=
  let cs1 := cs.dropWhile isPySpace
  let drun := cs1.takeWhile isPyDigit
  if 8 ≤ drun.length ∧ drun.length ≤ 14 then
    match wsPlus (cs1.drop drun.length) with
    | none => none
    | some cs2 =>
      match bdLoop [] cs2 with
      | some (bd, rate, amount, rest) => some (dev, drun, bd, rate, amount, rest)
      | none => none
  else none

/-- The backtracking order of the optional greedy `dev` group: lengths
from the full `[A-Z0-9]` run down to 2, then the group absent. -/
def devCandidates (n : Nat) : List (Option Nat) :=
  (((List.range (n + 1)).reverse).filter (fun k => 2 ≤ k)).map some ++ [none]

/-- Try the dev candidates in `re` preference order over the run `R`
(which the following `\d{8,14}` may eat into when `dev` backtracks). -/
def tryDevUpc (R afterR : List Char) : List (Option Nat) →
    Option (Option (List Char) × List Char × List Char × List Char ×
      List Char × List Char)
  | [] => none
  | cand :: more =>
    let attempt :=
      match cand with
      | some k => itemTailAt (some (R.take k)) (R.drop k ++ afterR)
      | none => itemTailAt none (R ++ afterR)
    match attempt with
    | some res => some res
    | none => tryDevUpc R afterR more

/-- One anchored attempt of the full item pattern at the head of `cs`;
returns the captured groups and the rest of the text after the match. -/
def matchItemAt (cs : List Char) : Option (ItemGroups × List Char) :=
  let qrun := cs.takeWhile isPyDigit
  if 1 ≤ qrun.length ∧ qrun.length ≤ 4 then
    match wsPlus (cs.drop qrun.length) with
    | none => none
    | some cs1 =>
      match matchSkuAt cs1 with
      | none => none
      | some (sku, cs2) =>
        match wsPlus cs2 with
        | none => none
        | some cs3 =>
          let R := cs3.takeWhile isUpperOrDigit
          let afterR := cs3.drop R.length
          match tryDevUpc R afterR (devCandidates R.length) with
          | some (dev, upc, bd, rate, amount, rest) =>
            some (⟨qrun, sku, dev, upc, bd, rate, amount⟩, rest)
          | none => none
  else none

/-- Row built from one regex match, parser.py:574-594: coerce qty/rate,
derive a missing amount, split brand/description; `hts_code` is the
literal empty string in this tier. -/
def regexRowOf (g : ItemGroups) : Row :=
  let qty := _to_int g.qty.asString
  let rate := _to_float g.rate.asString
  let amount0 := _to_float g.amount.asString
  let amount := finalizeAmount qty rate amount0
  let bd := _split_brand_desc g.branddesc.asString
  { qty := qty, sku := _clean_ws g.sku.asString,
    dev := _clean_ws ((g.dev.map List.asString).getD ""),
    upc := _clean_ws g.upc.asString, hts := "",
    brand := bd.1, desc := bd.2, rate := rate, amount := amount }

/-- `pat.finditer(text)` with the row built per match: scan left to
right, resume after each non-overlapping match (`fuel` bounds the scan;
`text.length + 1` always suffices since every step consumes at least one
character). -/
def regexScan : Nat → List Char → List Row
  | 0, _ => []
  | fuel + 1, cs =>
    match matchItemAt cs with
    | some (g, rest) => regexRowOf g :: regexScan fuel rest
    | none =>
      match cs with
      | [] => []
      | _ :: t => regexScan fuel t

/-- parser.py `_extract_via_regex` over the extracted page texts: join
pages with spaces, collapse whitespace, scan, deduplicate. (The Python
result is `[HEADER] +` these item rows.) -/
def _extract_via_regex (pages : List String) : List Row :=
  let text := subWsSpace ((String.intercalate " " pages).toList)
  _dedupe (regexScan (text.length + 1) text)

/-! # Header-metadata extraction (`parser.extract_header_meta`) -/

/-- `\s*`. -/
def dropWS (cs : List Char) : List Char := cs.dropWhile isPySpace

/-- An optional literal character (`#?`, `:?`, `\.?`, `\$?`); skipping it
when present can never help the patterns that use it, so consuming
greedily is faithful. -/
def optChar (c : Char) (cs : List Char) : List Char :=
  match cs with
  | x :: rest => if x = c then rest else cs
  | [] => cs

/-- A case-insensitive literal (`re.I`); `pat` is given in uppercase. -/
def litCI : List Char → List Char → Option (List Char)
  | [], cs => some cs
  | p :: ps, c :: cs => if upperAscii c = p then litCI ps cs else none
  | _ :: _, [] => none

/-- A digit group `(\d{lo,})`: the maximal digit run, of length at least
`lo`. -/
def digitGroup (lo : Nat) (cs : List Char) : Option (List Char) :=
  let run := cs.takeWhile isPyDigit
  if lo ≤ run.length then some run else none

/-- `PO\s*#?\s*(\d{4,})`, anchored; returns group 1. -/
def tryPO1At (cs : List Char) : Option (List Char) :=
  (litCI ['P', 'O'] cs).bind fun r1 =>
    digitGroup 4 (dropWS (optChar '#' (dropWS r1)))

/-- `Purchase\s+Order\s*#?\s*(\d{4,})`, anchored. -/
def tryPO2At (cs : List Char) : Option (List Char) :=
  (litCI ['P', 'U', 'R', 'C', 'H', 'A', 'S', 'E'] cs).bind fun r1 =>
    (wsPlus r1).bind fun r2 =>
      (litCI ['O', 'R', 'D', 'E', 'R'] r2).bind fun r3 =>
        digitGroup 4 (dropWS (optChar '#' (dropWS r3)))

/-- `Vendor\s*#\s*(\d+)`, anchored. -/
def tryVend1At (cs : List Char) : Option (List Char) :=
  (litCI ['V', 'E', 'N', 'D', 'O', 'R'] cs).bind fun r1 =>
    (litChar '#' (dropWS r1)).bind fun r2 =>
      digitGroup 1 (dropWS r2)

/-- `Vendor\s*No\.?\s*(\d+)`, anchored. -/
def tryVend2At (cs : List Char) : Option (List Char) :=
  (litCI ['V', 'E', 'N', 'D', 'O', 'R'] cs).bind fun r1 =>
    (litCI ['N', 'O'] (dropWS r1)).bind fun r2 =>
      digitGroup 1 (dropWS (optChar '.' r2))

/-- The date class group `([\d/\-]{6,10})`: greedy up to 10 characters,
at least 6. -/
def dateGroup (cs : List Char) : Option (List Char) :=
  let run := cs.takeWhile (fun c => isPyDigit c ∨ c = '/' ∨ c = '-')
  if 6 ≤ run.length then some (run.take 10) else none

/-- `SHIP\s*(?:COMPLETE\s*)?BY\s*DATE:?\s*([\d/\-]{6,10})`, anchored; the
optional `COMPLETE` branch is tried first, as `re` prefers a present
optional group. -/
def tryShip1At (cs : List Char) : Option (List Char) :=
  (litCI ['S', 'H', 'I', 'P'] cs).bind fun r1 =>
    let afterBy (r : List Char) : Option (List Char) :=
      (litCI ['B', 'Y'] r).bind fun r2 =>
        (litCI ['D', 'A', 'T', 'E'] (dropWS r2)).bind fun r3 =>
          dateGroup (dropWS (optChar ':' r3))
    let withComplete :=
      (litCI ['C', 'O', 'M', 'P', 'L', 'E', 'T', 'E'] (dropWS r1)).bind
        fun r2 => afterBy (dropWS r2)
    match withComplete with
    | some g => some g
    | none => afterBy (dropWS r1)

/-- `Ship\s*By:?\s*([\d/\-]{6,10})`, anchored. -/
def tryShip2At (cs : List Char) : Option (List Char) :=
  (litCI ['S', 'H', 'I', 'P'] cs).bind fun r1 =>
    (litCI ['B', 'Y'] (dropWS r1)).bind fun r2 =>
      dateGroup (dropWS (optChar ':' r2))

/-- The `\s*(.+)` tail of the payment-terms patterns. `\s*` is greedy and
eats newlines; `(.+)` then captures the rest of that line. When only
whitespace remains, `re` backtracks `\s*` until `.` can match, leaving
exactly the last non-newline whitespace character as the group. -/
def wsDotPlus (cs : List Char) : Option (List Char) :=
  let run := cs.takeWhile isPySpace
  let rest := cs.drop run.length
  match rest with
  | _ :: _ => some (rest.takeWhile (fun c => c ≠ '\n'))
  | [] =>
    match run.reverse.find? (fun c => c ≠ '\n') with
    | some c => some [c]
    | none => none

/-- `PAYMENT\s*TERMS:?\s*(.+)`, anchored. -/
def tryPay1At (cs : List Char) : Option (List Char) :=
  (litCI ['P', 'A', 'Y', 'M', 'E', 'N', 'T'] cs).bind fun r1 =>
    (litCI ['T', 'E', 'R', 'M', 'S'] (dropWS r1)).bind fun r2 =>
      wsDotPlus (optChar ':' r2)

/-- `Terms:?\s*(.+)`, anchored. -/
def tryPay2At (cs : List Char) : Option (List Char) :=
  (litCI ['T', 'E', 'R', 'M', 'S'] cs).bind fun r1 =>
    wsDotPlus (optChar ':' r1)

/-- `Total\s*\$?\s*([0-9]{1,3}(?:,[0-9]{3})*\.[0-9]{2})`, anchored; the
group is the same numeric body as the money pattern. -/
def tryTotalAt (cs : List Char) : Option (List Char) :=
  (litCI ['T', 'O', 'T', 'A', 'L'] cs).bind fun r1 =>
    match moneyBodyAt (dropWS (optChar '$' (dropWS r1))) with
    | some (g, _) => some g
    | none => none

/-- `re.search`: try the anchored attempt at every position, left to
right. -/
def searchScan (attempt : List Char → Option (List Char)) :
    List Char → Option (List Char)
  | [] => attempt []
  | c :: rest =>
    match attempt (c :: rest) with
    | some g => some g
    | none => searchScan attempt rest

/-- The `_pick` helper of `extract_header_meta`: try the patterns in
order against the text; the first match wins and its group 1 is
stripped; no match gives `None`. -/
def _pick : List (List Char → Option (List Char)) → List Char → Option String
  | [], _ => none
  | p :: ps, text =>
    match searchScan p text with
    | some g => some (pyStrip g.asString)
    | none => _pick ps text

/-- The backward total scan of parser.py:88-95, already applied to the
reversed page list: the first page (scanning backward) containing the
total pattern wins; the group is not stripped. -/
def findTotalRev : List String → Option String
  | [] => none
  | t :: rest =>
    match searchScan tryTotalAt t.toList with
    | some g => some g.asString
    | none => findTotalRev rest

/-- Python `x or "N/A"`: `None` and the empty string are falsy. -/
def orNA (o : Option String) : String :=
  match o with
  | some s => if s = "" then "N/A" else s
  | none => "N/A"

/-- parser.py `extract_header_meta` over the extracted page texts: each
field tries an ordered pattern list against page one, the total scans the
pages in reverse order, `page_count` is the page count. -/
def extract_header_meta (pages : List String) : HeaderMeta :=
  let first := (pages.headD "").toList
  { po_number := orNA (_pick [tryPO1At, tryPO2At] first),
    vendor_number := orNA (_pick [tryVend1At, tryVend2At] first),
    ship_by_date := orNA (_pick [tryShip1At, tryShip2At] first),
    payment_terms := orNA (_pick [tryPay1At, tryPay2At] first),
    total := orNA (findTotalRev pages.reverse),
    page_count := pages.length }

/-! # QA validator (`validator.py`) -/

/-- A pandas cell value: int, float, string, or NaN. Floats are exact
rationals here. -/
inductive PyVal
  | vint (n : Int)
  | vrat (q : ℚ)
  | vstr (s : String)
  | vnan
deriving DecidableEq, Repr

/-- A DataFrame as the ordered list of named columns (all of one length,
as the engine builds them). -/
structure DF where
  cols : List (String × List PyVal)
deriving Repr

/-- `df.columns`. -/
def DF.colNames (df : DF) : List String := df.cols.map Prod.fst

/-- `df[name]` / `df.get(name)`, for columns present in the frame. -/
def DF.get (df : DF) (name : String) : List PyVal :=
  (((df.cols.find? (fun p => p.1 = name)).map Prod.snd)).getD []

/-- `df.empty`: no rows (or no columns at all). -/
def DF.isEmptyDF (df : DF) : Bool :=
  match df.cols with
  | [] => true
  | (_, vs) :: _ => vs.isEmpty

/-- Left-pad a numeral with zeros to `d` digits. -/
def padZeros (n d : Nat) : String :=
  let s := toString n
  (List.replicate (d - s.length) '0').asString ++ s

/-- Decimal rendering of a float value (`str(x)` for the decimal-valued
floats the engine handles; a value with no terminating decimal expansion
cannot arise from them and falls back to a fraction rendering). -/
def ratDecStr (q : ℚ) : String :=
  let sign := if q < 0 then "-" else ""
  let a := |q|
  match (List.range 30).find? (fun k => ((a * (10 : ℚ) ^ (k + 1)).den = 1)) with
  | some k =>
    let d := k + 1
    let scaled := (a * (10 : ℚ) ^ d).num.toNat
    sign ++ toString (scaled / 10 ^ d) ++ "." ++ padZeros (scaled % 10 ^ d) d
  | none => sign ++ toString a.num ++ "/" ++ toString a.den

/-- Python `str(v)` on a cell value (`astype(str)`). -/
def pyStrOfVal (v : PyVal) : String :=
  match v with
  | .vint n => toString n
  | .vrat q => ratDecStr q
  | .vstr s => s
  | .vnan => "nan"

/-- `pd.to_numeric(v, errors="coerce")` on one cell: numbers pass
through, numeric strings parse, anything else becomes NaN (`none`). -/
def toNumeric (v : PyVal) : Option ℚ :=
  match v with
  | .vint n => some (n : ℚ)
  | .vrat q => some q
  | .vstr s => pyFloat (pyStrip s)
  | .vnan => none

/-- The `str.replace(r"\D", "", regex=True)` mapping on UPC strings. -/
def keepDigits (s : String) : String :=
  (s.toList.filter isPyDigit).asString

/-- The `str.replace(r"[^0-9\.\-]", "", regex=True)` mapping on
Rate/Amount strings. -/
def keepNumChars (s : String) : String :=
  (s.toList.filter (fun c => isPyDigit c ∨ c = '.' ∨ c = '-')).asString

/-- validator.py `_to_money`: strip, drop a (case-sensitive) `USD`
prefix, honour a parenthesized negative, drop `$` and commas, `float`.
`None` input gives NaN. A parse failure hits `return math.na`, and the
`math` module has no attribute `na`, so an `AttributeError` escapes:
that is the `.error` case. -/
def _to_money (s : Option String) : Except String (Option ℚ) :=
  match s with
  | none => .ok none
  | some s0 =>
    let txt0 := pyStrip s0
    let txt1 := if txt0.startsWith "USD" then pyStrip (txt0.drop 3) else txt0
    let neg := txt1.startsWith "(" ∧ txt1.endsWith ")"
    let txt2 := if neg then pyStrip ((txt1.drop 1).dropRight 1) else txt1
    let txt3 := (txt2.toList.filter (fun c => ¬ (c = '$' ∨ c = ','))).asString
    match pyFloat (pyStrip txt3) with
    | some v => .ok (some (if neg then -v else v))
    | none => .error "AttributeError: module math has no attribute na"

/-- The QA report `dict(ok=..., summary=...)`. -/
structure QAReport where
  ok : Bool
  summary : List String
deriving DecidableEq, Repr

/-- `meta.get(key, default)` on a string-valued metadata mapping. -/
def metaGet (meta : List (String × String)) (k dflt : String) : String :=
  (((meta.find? (fun p => p.1 = k)).map Prod.snd)).getD dflt

/-- validator.py `REQUIRED_COLS`. -/
def REQUIRED_COLS : List String :=
  ["Qty", "Item_SKU", "Dev_Code", "UPC", "HTS_Code", "Brand", "Description",
   "Rate", "Amount"]

/-- Python `", ".join`. -/
def joinComma (l : List String) : String := String.intercalate ", " l

/-- Two-decimal money formatting used in the mismatch message (the
thousands separators of `f-string ,.2f` are not reproduced; no claim
reads this text). -/
def money2str (q : ℚ) : String :=
  let c := roundHalfEven (q * 100)
  let n := c.natAbs
  (if c < 0 then "-" else "") ++ toString (n / 100) ++ "." ++ padZeros (n % 100) 2

/-- validator.py `run_qa_checks`: the five advisory checks, collected
into one report; the grand-total reconciliation calls `_to_money`, whose
failure path raises (the `.error` case). -/
def run_qa_checks (df : DF) (meta : List (String × String)) :
    Except String QAReport :=
  let missing := REQUIRED_COLS.filter (fun c => ¬ df.colNames.contains c)
  let issues0 : List String :=
    if missing.isEmpty then []
    else ["Missing columns: " ++ joinComma missing]
  if df.isEmptyDF then .ok ⟨issues0.isEmpty, issues0⟩
  else if ¬ (["Qty", "UPC", "Rate", "Amount"].all (df.colNames.contains ·)) then
    .ok ⟨false, issues0⟩
  else
    let qtyN := (df.get "Qty").map toNumeric
    let badQty := ((qtyN.map (fun o => o.getD (-1))).filter (fun x => x ≤ 0)).length
    let issues1 :=
      if badQty ≠ 0 then issues0 ++ [toString badQty ++ " rows have non-positive Qty"]
      else issues0
    let upcClean := (df.get "UPC").map (fun v => keepDigits (pyStrOfVal v))
    let badUpc := (upcClean.filter (fun s => ¬ _upc_ok s)).length
    let issues2 :=
      if badUpc ≠ 0 then issues1 ++ [toString badUpc ++ " rows fail UPC-A check digit"]
      else issues1
    let q := qtyN.map (fun o => o.getD 0)
    let r := (df.get "Rate").map (fun v => pyFloat (pyStrip (keepNumChars (pyStrOfVal v))))
    let a := (df.get "Amount").map (fun v => pyFloat (pyStrip (keepNumChars (pyStrOfVal v))))
    let triples := (q.zip (r.zip a)).map (fun p => (p.1, p.2.1, p.2.2))
    let nBad := (triples.filter (fun t =>
      match t.2.1, t.2.2 with
      | some rv, some av => decide (1/100 < |t.1 * rv - av|)
      | _, _ => false)).length
    let issues3 :=
      if nBad ≠ 0 then issues2 ++ [toString nBad ++ " rows where Qty*Rate != Amount"]
      else issues2
    let nMiss := ((r.zip a).filter (fun p => p.1.isNone ∨ p.2.isNone)).length
    let issues4 :=
      if nMiss ≠ 0 then issues3 ++ [toString nMiss ++ " rows with missing Rate or Amount"]
      else issues3
    let totalTrim := pyStrip (metaGet meta "total" "")
    if ¬ (totalTrim = "" ∨ totalTrim = "N/A" ∨ totalTrim = "None") then
      match _to_money (some (metaGet meta "total" "")) with
      | .error e => .error e
      | .ok target =>
        let validAmt := a.filterMap id
        let issues5 :=
          if validAmt.isEmpty then issues4
          else
            let actual := validAmt.sum
            match target with
            | some t =>
              if 1/100 < |actual - t| then
                issues4 ++ ["Grand total mismatch: parsed=$" ++ money2str actual ++
                  ", PDF=$" ++ money2str t]
              else issues4
            | none => issues4
        .ok ⟨issues5.isEmpty, issues5⟩
    else .ok ⟨issues4.isEmpty, issues4⟩

/-! # Concrete inputs used by the closed theorems below -/

/-- A well-formed item row used to exercise the orchestrator. -/
def sampleRow : Row :=
  { qty := some 1, sku := "SKU1", dev := "D1", upc := "012345678905",
    hts := "12345678", brand := "ACME", desc := "Thing",
    rate := some 1, amount := some 1 }

/-- Four item rows: with the header this is a length-5 candidate. -/
def fourRows : List Row := List.replicate 4 sampleRow

/-- A row whose trimmed SKU contains the `dedupeKey` separator. -/
def c4RowA : Row :=
  { qty := some 1, sku := "a|b", dev := "", upc := "c", hts := "",
    brand := "", desc := "", rate := none, amount := none }

/-- A row with a different trimmed `(sku, upc)` pair from `c4RowA` but the
same joined key string. -/
def c4RowB : Row :=
  { qty := some 2, sku := "a", dev := "", upc := "b|c", hts := "",
    brand := "", desc := "", rate := none, amount := none }

/-- Column windows for a two-column band. -/
def c1ColX : ColX := [("qty", 0, 50), ("sku", 50, 150)]

/-- A band of two words: the first sits squarely inside the `qty` window,
the second inside the `sku` window. -/
def c1Band : List Word :=
  [{ x0 := 10, x1 := 20, top := 40, bottom := 50, text := "2" },
   { x0 := 60, x1 := 100, top := 40, bottom := 50, text := "ABC123" }]

/-- The end-to-end text of spec §8 for the regex tier. -/
def c8Text : String :=
  "2 ABCD12AB34-12-X1234-ABCDE G1 012345678901 ACME Cool Thing $7.50 $15.00"

/-- The row the spec example claims the regex tier yields from `c8Text`. -/
def c8ClaimRow : Row :=
  { qty := some 2, sku := "ABCD12AB34-12-X1234-ABCDE", dev := "G1",
    upc := "012345678901", hts := "", brand := "ACME", desc := "Cool Thing",
    rate := some (15/2), amount := some 15 }

/-- The same text with a SKU that fits the pattern shape
`[A-Z0-9][A-Z]{2}\d{4}-\d{2}-[A-Z]\d{4}-[A-Z0-9]{5}`. -/
def c8TextAmended : String :=
  "2 AAB1234-12-X1234-ABCDE G1 012345678901 ACME Cool Thing $7.50 $15.00"

/-- The row the regex tier yields from `c8TextAmended`. -/
def c8Row : Row :=
  { qty := some 2, sku := "AAB1234-12-X1234-ABCDE", dev := "G1",
    upc := "012345678901", hts := "", brand := "ACME", desc := "Cool Thing",
    rate := some (15/2), amount := some 15 }

/-- A one-row DataFrame with all nine canonical columns and values that
pass checks 1-4. -/
def dfC2 : DF :=
  ⟨[("Qty", [.vstr "1"]), ("Item_SKU", [.vstr "A"]), ("Dev_Code", [.vstr "D"]),
    ("UPC", [.vstr "036000291452"]), ("HTS_Code", [.vstr "12345678"]),
    ("Brand", [.vstr "B"]), ("Description", [.vstr "X"]),
    ("Rate", [.vstr "10.00"]), ("Amount", [.vstr "10.00"])]⟩

/-! # Theorems for the claims -/

/-- Claim C9: the caller-facing wrapper raises the distinguished
`No data rows found in PDF` error exactly when the accepted result has at
most one row (the header only), and returns the metadata and rows
normally whenever at least one item row is present. -/
theorem claim_C9 :
    (∀ (meta : HeaderMeta) (items : List Row),
      (extract_data_from_pdf meta items = Except.error "No data rows found in PDF"
        ↔ items.length + 1 ≤ 1)) ∧
    (∀ (meta : HeaderMeta) (r : Row) (rs : List Row),
      extract_data_from_pdf meta (r :: rs) = Except.ok (meta, r :: rs)) := by
  constructor
  · intro meta items
    cases items with
    | nil => simp [extract_data_from_pdf]
    | cons r rs => simp [extract_data_from_pdf]
  · intro meta r rs
    simp [extract_data_from_pdf]

/-- Claim C3: the orchestrator runs the tiers in order position, tables,
regex; a candidate is accepted iff its total length (header plus items)
is at least 5; the first accepted candidate is returned; a tier
exception is tier failure; with no accepted tier the header-only result
is returned; a length-1 candidate is rejected and a length-5 one
accepted. -/
theorem claim_C3 :
    (∀ items : List Row, _is_reasonable items = true ↔ 5 ≤ items.length + 1) ∧
    (∀ e, acceptTier (Except.error e) = none) ∧
    (∀ items : List Row, _is_reasonable items = false →
      acceptTier (Except.ok items) = none) ∧
    (∀ t2 t3 (items : List Row), _is_reasonable items = true →
      extract_table_rows (Except.ok items) t2 t3 = items) ∧
    (∀ t1 t3 (items : List Row), acceptTier t1 = none →
      _is_reasonable items = true →
      extract_table_rows t1 (Except.ok items) t3 = items) ∧
    (∀ t1 t2 (items : List Row), acceptTier t1 = none → acceptTier t2 = none →
      _is_reasonable items = true →
      extract_table_rows t1 t2 (Except.ok items) = items) ∧
    (∀ t1 t2 t3, acceptTier t1 = none → acceptTier t2 = none →
      acceptTier t3 = none → extract_table_rows t1 t2 t3 = []) ∧
    (extract_table_rows (Except.ok []) (Except.error "e1") (Except.error "e2")
      = []) ∧
    (∀ t2 t3, extract_table_rows (Except.ok fourRows) t2 t3 = fourRows) := by
  refine ⟨?_, ?_, ?_, ?_, ?_, ?_, ?_, ?_, ?_⟩
  · intro items
    simp [_is_reasonable]
  · intro e
    rfl
  · intro items h
    simp [acceptTier, h]
  · intro t2 t3 items h
    simp [extract_table_rows, acceptTier, h]
  · intro t1 t3 items h1 h2
    simp only [extract_table_rows, h1]
    simp [acceptTier, h2]
  · intro t1 t2 items h1 h2 h3
    simp only [extract_table_rows, h1, h2]
    simp [acceptTier, h3]
  · intro t1 t2 t3 h1 h2 h3
    simp only [extract_table_rows, h1, h2, h3]
  · rfl
  · intro t2 t3
    simp [extract_table_rows, acceptTier, _is_reasonable, fourRows]

/-- Witness for claim C3 at concrete inputs: a tier-1 exception falls
through to an accepted 4-item tier-2 candidate; three failures give the
header-only result; an unreasonable single-row candidate is skipped. -/
theorem claim_C3_witness :
    extract_table_rows (Except.error "boom") (Except.ok fourRows)
      (Except.error "e") = fourRows ∧
    extract_table_rows (Except.ok [sampleRow]) (Except.error "e1")
      (Except.error "e2") = [] ∧
    extract_table_rows (Except.ok []) (Except.ok fourRows)
      (Except.error "e") = fourRows := by
  refine ⟨?_, ?_, ?_⟩
  · exact claim_C3.2.2.2.2.1 (Except.error "boom") (Except.error "e") fourRows
      (by decide) (by decide)
  · exact claim_C3.2.2.2.2.2.2.1 (Except.ok [sampleRow]) (Except.error "e1")
      (Except.error "e2") (by decide) (by decide) (by decide)
  · exact claim_C3.2.2.2.2.1 (Except.ok []) (Except.error "e") fourRows
      (by decide) (by decide)

/-- Claim C5: in each of the three tiers, a row whose qty and rate were
parsed but whose amount was not gets the derived amount
`round(qty*rate, 2)`, and a row with a parsed amount keeps it
unchanged. -/
theorem claim_C5 :
    (∀ (qty_s sku_s dev_s upc_s hts_s bd : String) (q : Int) (r : ℚ),
      _to_int qty_s = some q →
      (posFinishRow qty_s sku_s dev_s upc_s hts_s bd (some r) none).amount
          = some (pyRound2 ((q : ℚ) * r)) ∧
      (∀ a : ℚ,
        (posFinishRow qty_s sku_s dev_s upc_s hts_s bd (some r) (some a)).amount
          = some a)) ∧
    (∀ (row : List String) (q : Int) (r : ℚ),
      _to_int (_safe_pick row 0) = some q →
      _to_float (_safe_pick row (-2)) = some r →
      (_to_float (_safe_pick row (-1)) = none →
        (tableRowOf row).amount = some (pyRound2 ((q : ℚ) * r))) ∧
      (∀ a : ℚ, _to_float (_safe_pick row (-1)) = some a →
        (tableRowOf row).amount = some a)) ∧
    (∀ (g : ItemGroups) (q : Int) (r : ℚ),
      _to_int g.qty.asString = some q →
      _to_float g.rate.asString = some r →
      (_to_float g.amount.asString = none →
        (regexRowOf g).amount = some (pyRound2 ((q : ℚ) * r))) ∧
      (∀ a : ℚ, _to_float g.amount.asString = some a →
        (regexRowOf g).amount = some a)) := by
  refine ⟨?_, ?_, ?_⟩
  · intro qty_s sku_s dev_s upc_s hts_s bd q r hq
    constructor
    · simp [posFinishRow, finalizeAmount, hq]
    · intro a
      simp [posFinishRow, finalizeAmount, hq]
  · intro row q r hq hr
    constructor
    · intro ha
      simp [tableRowOf, finalizeAmount, hq, hr, ha]
    · intro a ha
      simp [tableRowOf, finalizeAmount, hq, hr, ha]
  · intro g q r hq hr
    constructor
    · intro ha
      simp [regexRowOf, finalizeAmount, hq, hr, ha]
    · intro a ha
      simp [regexRowOf, finalizeAmount, hq, hr, ha]

/-- Witness for claim C5 at concrete inputs in each tier: qty 2, rate
7.50, missing amount gives 15.00; a parsed amount 9.99 stays. -/
theorem claim_C5_witness :
    ((posFinishRow "2" "SKU" "D" "U" "H" "ACME Thing" (some (15/2)) none).amount
        = some (pyRound2 ((2 : Int) * (15/2))) ∧
      (posFinishRow "2" "SKU" "D" "U" "H" "ACME Thing" (some (15/2))
        (some (999/100))).amount = some (999/100)) ∧
    ((tableRowOf ["2", "SKU", "D", "012345678901", "", "ACME Thing",
        "$7.50", ""]).amount = some (pyRound2 ((2 : Int) * (15/2))) ∧
      (tableRowOf ["2", "SKU", "D", "012345678901", "", "ACME Thing",
        "$7.50", "$9.99"]).amount = some (999/100)) ∧
    ((regexRowOf ⟨['2'], ['S'], none, ['1'], ['B'], ['7', '.', '5', '0'],
        []⟩).amount = some (pyRound2 ((2 : Int) * (15/2))) ∧
      (regexRowOf ⟨['2'], ['S'], none, ['1'], ['B'], ['7', '.', '5', '0'],
        ['9', '.', '9', '9']⟩).amount = some (999/100)) := by
  refine ⟨⟨?_, ?_⟩, ⟨?_, ?_⟩, ⟨?_, ?_⟩⟩
  · exact (claim_C5.1 "2" "SKU" "D" "U" "H" "ACME Thing" 2 (15/2) (by with_unfolding_all rfl)).1
  · exact (claim_C5.1 "2" "SKU" "D" "U" "H" "ACME Thing" 2 (15/2)
      (by with_unfolding_all rfl)).2 (999/100)
  · exact (claim_C5.2.1 ["2", "SKU", "D", "012345678901", "", "ACME Thing",
      "$7.50", ""] 2 (15/2) (by with_unfolding_all rfl) (by with_unfolding_all rfl)).1 (by with_unfolding_all rfl)
  · exact (claim_C5.2.1 ["2", "SKU", "D", "012345678901", "", "ACME Thing",
      "$7.50", "$9.99"] 2 (15/2) (by with_unfolding_all rfl) (by with_unfolding_all rfl)).2 (999/100) (by with_unfolding_all rfl)
  · exact (claim_C5.2.2 ⟨['2'], ['S'], none, ['1'], ['B'], ['7', '.', '5', '0'],
      []⟩ 2 (15/2) (by with_unfolding_all rfl) (by with_unfolding_all rfl)).1 (by with_unfolding_all rfl)
  · exact (claim_C5.2.2 ⟨['2'], ['S'], none, ['1'], ['B'], ['7', '.', '5', '0'],
      ['9', '.', '9', '9']⟩ 2 (15/2) (by with_unfolding_all rfl) (by with_unfolding_all rfl)).2 (999/100)
      (by with_unfolding_all rfl)

/-- Claim C7: the UPC predicate accepts a value iff it is a 12-digit
sequence whose UPC-A check digit (computed as the claim words it over
`d0..d11`) equals the final digit; `036000291452` passes and
`036000291453` fails. -/
theorem claim_C7 :
    (∀ s : String, _upc_ok s = upcSpec s) ∧
    _upc_ok "036000291452" = true ∧ _upc_ok "036000291453" = false := by
  refine ⟨fun s => ?_, by decide, by decide⟩
  unfold _upc_ok upcSpec
  match s, s.toList with
  | s, [] => rfl
  | s, [c0] => rfl
  | s, [c0, c1] => rfl
  | s, [c0, c1, c2] => rfl
  | s, [c0, c1, c2, c3] => rfl
  | s, [c0, c1, c2, c3, c4] => rfl
  | s, [c0, c1, c2, c3, c4, c5] => rfl
  | s, [c0, c1, c2, c3, c4, c5, c6] => rfl
  | s, [c0, c1, c2, c3, c4, c5, c6, c7] => rfl
  | s, [c0, c1, c2, c3, c4, c5, c6, c7, c8] => rfl
  | s, [c0, c1, c2, c3, c4, c5, c6, c7, c8, c9] => rfl
  | s, [c0, c1, c2, c3, c4, c5, c6, c7, c8, c9, c10] => rfl
  | s, c0 :: c1 :: c2 :: c3 :: c4 :: c5 :: c6 :: c7 :: c8 :: c9 :: c10 :: c11 :: c12 :: rest => rfl
  | s, [c0, c1, c2, c3, c4, c5, c6, c7, c8, c9, c10, c11] => ?_
  by_cases hd : (([c0, c1, c2, c3, c4, c5, c6, c7, c8, c9, c10, c11] : List Char).all isPyDigit) = true
  · simp only [hd, List.length_cons, List.length_nil, and_true, if_true, reduceIte,
      Nat.reduceAdd, and_self, pySliceIdx, List.filterMap, List.get?, List.map, List.sum,
      List.getLast?, decide_eq_decide, List.foldr, Nat.add_zero, Nat.add_assoc,
      Option.some.injEq]
    exact Iff.rfl
  · simp [hd]

/-- The seen-set loop of `_dedupe` computes the first-occurrence-per-key
recursion, relative to keys already seen. -/
theorem dedupeGo_eq_spec (rows : List Row) : ∀ seen,
    dedupeGo seen rows = dedupeStrSpec (rows.filter (fun r => decide (dedupeKey r ∉ seen))) := by
  induction rows with
  | nil => intro seen; simp [dedupeGo, dedupeStrSpec]
  | cons r rest ih =>
    intro seen
    by_cases hk : dedupeKey r ∈ seen
    · simp only [dedupeGo, if_pos hk, List.filter_cons, hk, decide_not, not_true,
        Bool.not_true, if_neg, Bool.false_eq_true]
      simp [ih]
    · simp only [dedupeGo, if_neg hk, List.filter_cons]
      have hpred : decide (dedupeKey r ∉ seen) = true := by simp [hk]
      rw [hpred]
      simp only [if_pos]
      rw [ih (dedupeKey r :: seen)]
      conv_rhs => rw [dedupeStrSpec]
      congr 1
      congr 1
      rw [List.filter_filter]
      apply List.filter_congr
      intro x hx
      by_cases h1 : dedupeKey x = dedupeKey r <;> by_cases h2 : dedupeKey x ∈ seen <;>
        simp [h1, h2]

/-- Members of the deduplicated list come from the input. -/
theorem mem_dedupeStrSpec {x : Row} : ∀ rows : List Row, x ∈ dedupeStrSpec rows → x ∈ rows := by
  intro rows
  induction rows using dedupeStrSpec.induct with
  | case1 => simp [dedupeStrSpec]
  | case2 r rest ih =>
    rw [dedupeStrSpec]
    intro hx
    rcases List.mem_cons.mp hx with h | h
    · exact h ▸ List.mem_cons_self r rest
    · exact List.mem_cons_of_mem r (List.mem_of_mem_filter (ih h))

/-- The deduplicated list has pairwise-distinct keys. -/
theorem pairwise_dedupeStrSpec : ∀ rows : List Row,
    (dedupeStrSpec rows).Pairwise (fun a b => dedupeKey a ≠ dedupeKey b) := by
  intro rows
  induction rows using dedupeStrSpec.induct with
  | case1 => simp [dedupeStrSpec]
  | case2 r rest ih =>
    rw [dedupeStrSpec]
    refine List.Pairwise.cons ?_ ih
    intro b hb
    have := List.of_mem_filter (mem_dedupeStrSpec _ hb)
    simp at this
    exact fun he => this (he ▸ rfl)

/-- Deduplication only removes rows; order is preserved. -/
theorem dedupeGo_sublist (rows : List Row) : ∀ seen, (dedupeGo seen rows).Sublist rows := by
  induction rows with
  | nil => intro seen; simp [dedupeGo]
  | cons r rest ih =>
    intro seen
    by_cases hk : dedupeKey r ∈ seen
    · simpa [dedupeGo, hk] using (ih seen).cons r
    · simpa [dedupeGo, hk] using (ih (dedupeKey r :: seen)).cons₂ r

/-- Claim C4 (amended): deduplication keys rows by the joined string
`trimmed sku, a pipe, trimmed upc`; it keeps exactly the first occurrence
per joined key, preserves encounter order (the result is a sublist of the
input), and no two surviving rows share the joined key nor the trimmed
`(sku, upc)` pair. -/
theorem claim_C4 :
    (∀ rows : List Row, _dedupe rows = dedupeStrSpec rows) ∧
    (∀ rows : List Row,
      (_dedupe rows).Pairwise (fun a b => dedupeKey a ≠ dedupeKey b)) ∧
    (∀ rows : List Row,
      (_dedupe rows).Pairwise (fun a b =>
        ¬ (pyStrip a.sku = pyStrip b.sku ∧ pyStrip a.upc = pyStrip b.upc))) ∧
    (∀ rows : List Row, (_dedupe rows).Sublist rows) := by
  have heq : ∀ rows : List Row, _dedupe rows = dedupeStrSpec rows := by
    intro rows
    have := dedupeGo_eq_spec rows []
    simpa [_dedupe] using this
  refine ⟨heq, ?_, ?_, fun rows => dedupeGo_sublist rows []⟩
  · intro rows
    rw [heq]
    exact pairwise_dedupeStrSpec rows
  · intro rows
    rw [heq]
    refine (pairwise_dedupeStrSpec rows).imp ?_
    intro a b hne hpair
    exact hne (by simp [dedupeKey, hpair.1, hpair.2])

/-- Counterexample for claim C4: two rows with distinct trimmed
`(sku, upc)` pairs but the same joined key string collapse, so `_dedupe`
does not keep the first occurrence per pair key. -/
theorem claim_C4_counterexample :
    _dedupe [c4RowA, c4RowB] = [c4RowA] ∧
    _dedupe [c4RowA, c4RowB] ≠ dedupePairSpec [c4RowA, c4RowB] ∧
    ¬ (pyStrip c4RowB.sku = pyStrip c4RowA.sku ∧ pyStrip c4RowB.upc = pyStrip c4RowA.upc) := by
  refine ⟨by decide, ?_, by decide⟩
  have h1 : _dedupe [c4RowA, c4RowB] = [c4RowA] := by decide
  have h2 : dedupePairSpec [c4RowA, c4RowB] = [c4RowA, c4RowB] := by
    simp +decide [dedupePairSpec]
  rw [h1, h2]
  decide

/-- Claim C1, failing input: in the band `c1Band` the first word "2" has
its x-midpoint `(10+20)/2` inside the `qty` window, yet the `qty` cell
comes out empty and only the final word "ABC123" reaches a cell — the
classification block of parser.py:218-229 sits outside the word loop, so
non-final words are never assigned. -/
theorem claim_C1_first_word_dropped :
    _which_col ((10 + 20) / 2) c1ColX = some "qty" ∧
    bandCells c1ColX c1Band = [("qty", []), ("sku", ["ABC123"])] := by
  exact ⟨by with_unfolding_all rfl, by with_unfolding_all rfl⟩

/-- Reclassification never invents a column for an unassigned token. -/
theorem reclassify_isSome {o : Option String} {t c : String}
    (h : reclassify o t = some c) : o.isSome = true := by
  cases o with
  | some x => rfl
  | none => simp [reclassify] at h

/-- Insertion-sort membership, one step. -/
theorem mem_insertByX0 {x w : Word} {l : List Word} :
    x ∈ insertByX0 w l → x = w ∨ x ∈ l := by
  induction l with
  | nil => intro h; simp [insertByX0] at h; exact Or.inl h
  | cons y ys ih =>
    intro h
    unfold insertByX0 at h
    by_cases hle : w.x0 ≤ y.x0
    · rw [if_pos hle] at h
      rcases List.mem_cons.mp h with h | h
      · exact Or.inl h
      · exact Or.inr h
    · rw [if_neg hle] at h
      rcases List.mem_cons.mp h with h | h
      · exact Or.inr (h ▸ List.mem_cons_self y ys)
      · rcases ih h with h | h
        · exact Or.inl h
        · exact Or.inr (List.mem_cons_of_mem y h)

/-- Sorting by x0 preserves membership. -/
theorem mem_sortByX0 {x : Word} {l : List Word} :
    x ∈ sortByX0 l → x ∈ l := by
  induction l with
  | nil => intro h; simp [sortByX0] at h
  | cons y ys ih =>
    intro h
    unfold sortByX0 at h
    rcases mem_insertByX0 h with h | h
    · exact h ▸ List.mem_cons_self y ys
    · exact List.mem_cons_of_mem y (ih h)

/-- Every cell of the empty cells dict is empty. -/
theorem toks_emptyCells {colx : ColX} {k : String} {toks : List String}
    (h : (k, toks) ∈ emptyCells colx) : toks = [] := by
  unfold emptyCells at h
  obtain ⟨p, _, he⟩ := List.mem_map.mp h
  exact (Prod.mk.injEq _ _ _ _ ▸ he).2.symm

/-- After one append to the empty cells dict, a cell is empty or holds
exactly the appended token. -/
theorem toks_cellsAppend {colx : ColX} {c t k : String} {toks : List String}
    (h : (k, toks) ∈ cellsAppend (emptyCells colx) c t) :
    toks = [] ∨ toks = [t] := by
  unfold cellsAppend at h
  obtain ⟨⟨p1, p2⟩, hp, he⟩ := List.mem_map.mp h
  have hpe : p2 = [] := toks_emptyCells hp
  subst hpe
  by_cases hc : p1 = c
  · rw [if_pos hc] at he
    right
    exact ((Prod.mk.injEq _ _ _ _ ▸ he).2).symm
  · rw [if_neg hc] at he
    left
    exact ((Prod.mk.injEq _ _ _ _ ▸ he).2).symm

/-- Claim C10: a word whose x-midpoint lies in none of the column windows
gets `None` from the column lookup, and its token is silently dropped
from the band cells (every token that reaches a cell comes from a word
whose lookup succeeded), rather than spilling into brand/description. -/
theorem claim_C10 :
    (∀ (x : ℚ) (colx : ColX),
      (∀ e ∈ colx, ¬ (e.2.1 ≤ x ∧ x ≤ e.2.2)) → _which_col x colx = none) ∧
    (∀ (colx : ColX) (arr : List Word) (k : String) (toks : List String)
      (tok : String), (k, toks) ∈ bandCells colx arr → tok ∈ toks →
      ∃ w, w ∈ arr ∧ w.text = tok ∧
        (_which_col ((w.x0 + w.x1) / 2) colx).isSome = true) := by
  constructor
  · intro x colx h
    induction colx with
    | nil => rfl
    | cons e rest ih =>
      unfold _which_col
      rw [if_neg (h e (List.mem_cons_self e rest))]
      exact ih (fun e' he' => h e' (List.mem_cons_of_mem e he'))
  · intro colx arr k toks tok hk htok
    unfold bandCells at hk
    cases hlast : (sortByX0 arr).getLast? with
    | none =>
      rw [hlast] at hk
      rw [toks_emptyCells hk] at htok
      cases htok
    | some w =>
      rw [hlast] at hk
      dsimp only at hk
      cases hrc : reclassify (_which_col ((w.x0 + w.x1) / 2) colx) w.text with
      | none =>
        rw [hrc] at hk
        dsimp only at hk
        rw [toks_emptyCells hk] at htok
        cases htok
      | some c =>
        rw [hrc] at hk
        dsimp only at hk
        by_cases hc : c ≠ ""
        · rw [if_pos hc] at hk
          rcases toks_cellsAppend hk with h | h
          · rw [h] at htok; cases htok
          · rw [h] at htok
            have htk : tok = w.text := List.mem_singleton.mp htok
            refine ⟨w, ?_, htk.symm, reclassify_isSome hrc⟩
            obtain ⟨hne, hw⟩ := List.mem_getLast?_eq_getLast hlast
            exact mem_sortByX0 (by rw [hw]; exact List.getLast_mem hne)
        · rw [if_neg hc] at hk
          rw [toks_emptyCells hk] at htok
          cases htok

/-- Witness for claim C10: the midpoint 200 lies in no window, and for a
band whose word does land in a window, the token in the cells traces back
to that word. -/
theorem claim_C10_witness :
    _which_col 200 [("qty", 0, 50)] = none ∧
    (∃ w, w ∈ [({ x0 := 0, x1 := 20, top := 0, bottom := 0, text := "7" } : Word)] ∧
      w.text = "7" ∧
      (_which_col ((w.x0 + w.x1) / 2) [("qty", (0 : ℚ), 50)]).isSome = true) := by
  constructor
  · exact claim_C10.1 200 [("qty", 0, 50)]
      (by intro e he; rcases List.mem_singleton.mp he with rfl; norm_num)
  · exact claim_C10.2 [("qty", (0 : ℚ), 50)]
      [{ x0 := 0, x1 := 20, top := 0, bottom := 0, text := "7" }] "qty" ["7"] "7"
      ((show bandCells [("qty", (0 : ℚ), 50)]
          [{ x0 := 0, x1 := 20, top := 0, bottom := 0, text := "7" }]
          = [("qty", ["7"])] by with_unfolding_all rfl) ▸
        List.mem_cons_self _ _)
      (List.mem_singleton.mpr rfl)

/-- Claim C2, failing input: on a well-formed one-row frame, a metadata
total that fails currency parsing sends `_to_money` into its
`return math.na` branch, which raises `AttributeError` (the `math`
module has no attribute `na`; the docstring promises NaN), so
`run_qa_checks` does not return normally. The same frame with a
parseable total returns `ok = true` with no issues. -/
theorem claim_C2_raises :
    run_qa_checks dfC2 [("total", "abc")] =
      Except.error "AttributeError: module math has no attribute na" ∧
    run_qa_checks dfC2 [("total", "$10.00")] = Except.ok ⟨true, []⟩ := by
  exact ⟨by with_unfolding_all rfl, by with_unfolding_all rfl⟩
/-- No page matches the total pattern: the backward scan yields `None`. -/
theorem findTotalRev_none : ∀ {l : List String},
    (∀ t ∈ l, searchScan tryTotalAt t.toList = none) → findTotalRev l = none := by
  intro l
  induction l with
  | nil => intro _; rfl
  | cons t rest ih =>
    intro h
    unfold findTotalRev
    rw [h t (List.mem_cons_self t rest)]
    exact ih (fun u hu => h u (List.mem_cons_of_mem t hu))

/-- The backward total scan skips a prefix of non-matching pages. -/
theorem findTotalRev_append : ∀ {l1 l2 : List String},
    (∀ t ∈ l1, searchScan tryTotalAt t.toList = none) →
    findTotalRev (l1 ++ l2) = findTotalRev l2 := by
  intro l1
  induction l1 with
  | nil => intro l2 _; rfl
  | cons t rest ih =>
    intro l2 h
    rw [List.cons_append]
    conv_lhs => rw [findTotalRev]
    rw [h t (List.mem_cons_self t rest)]
    exact ih (fun u hu => h u (List.mem_cons_of_mem t hu))

/-- `_pick` yields `None` when no pattern in the list matches. -/
theorem pick_none : ∀ {ps : List (List Char → Option (List Char))} {text : List Char},
    (∀ p ∈ ps, searchScan p text = none) → _pick ps text = none := by
  intro ps
  induction ps with
  | nil => intro text _; rfl
  | cons p rest ih =>
    intro text h
    unfold _pick
    rw [h p (List.mem_cons_self p rest)]
    exact ih (fun q hq => h q (List.mem_cons_of_mem p hq))

/-- Claim C6: `extract_header_meta` tries the ordered pattern lists
against page-one text with the first match winning and "N/A" on no
match; the total is searched over the pages in reverse order with the
first backward-scanned page containing the total pattern winning;
`page_count` always equals the page count; with zero pages (or nothing
matching anywhere) all five string fields are "N/A". -/
theorem claim_C6 :
    (∀ pages : List String, (extract_header_meta pages).page_count = pages.length) ∧
    (extract_header_meta [] =
      { po_number := "N/A", vendor_number := "N/A", ship_by_date := "N/A",
        payment_terms := "N/A", total := "N/A", page_count := 0 }) ∧
    (∀ (p : List Char → Option (List Char)) (ps : List (List Char → Option (List Char)))
      (text g : List Char),
      searchScan p text = some g → _pick (p :: ps) text = some (pyStrip g.asString)) ∧
    (∀ (ps : List (List Char → Option (List Char))) (text : List Char),
      (∀ p ∈ ps, searchScan p text = none) → _pick ps text = none) ∧
    (∀ pages : List String,
      searchScan tryPO1At (pages.headD "").toList = none →
      searchScan tryPO2At (pages.headD "").toList = none →
      searchScan tryVend1At (pages.headD "").toList = none →
      searchScan tryVend2At (pages.headD "").toList = none →
      searchScan tryShip1At (pages.headD "").toList = none →
      searchScan tryShip2At (pages.headD "").toList = none →
      searchScan tryPay1At (pages.headD "").toList = none →
      searchScan tryPay2At (pages.headD "").toList = none →
      (∀ t ∈ pages, searchScan tryTotalAt t.toList = none) →
      extract_header_meta pages =
        { po_number := "N/A", vendor_number := "N/A", ship_by_date := "N/A",
          payment_terms := "N/A", total := "N/A", page_count := pages.length }) ∧
    (∀ (pre post : List String) (t : String) (g : List Char),
      searchScan tryTotalAt t.toList = some g →
      (∀ u ∈ post, searchScan tryTotalAt u.toList = none) →
      (extract_header_meta (pre ++ t :: post)).total = orNA (some g.asString)) := by
  refine ⟨fun pages => rfl, by with_unfolding_all rfl, ?_, fun ps text h => pick_none h, ?_, ?_⟩
  · intro p ps text g h
    unfold _pick
    rw [h]
  · intro pages h1 h2 h3 h4 h5 h6 h7 h8 ht
    have htot : findTotalRev pages.reverse = none :=
      findTotalRev_none (fun u hu => ht u (List.mem_reverse.mp hu))
    simp only [extract_header_meta, _pick, h1, h2, h3, h4, h5, h6, h7, h8, htot, orNA]
  · intro pre post t g hg hpost
    have htot : findTotalRev ((pre ++ t :: post).reverse) = some g.asString := by
      rw [List.reverse_append, List.reverse_cons, List.append_assoc]
      rw [findTotalRev_append (fun u hu => hpost u (List.mem_reverse.mp hu))]
      rw [List.singleton_append]
      unfold findTotalRev
      rw [hg]
    simp only [extract_header_meta, htot]

/-- Witness for claim C6 at concrete inputs: the first PO pattern wins on
"PO 12345"; a non-matching page gives `None`; two empty pages give all
defaults with page count 2; the total comes from the last matching page
scanning backward. -/
theorem claim_C6_witness :
    _pick [tryPO1At, tryPO2At] "PO 12345".toList =
      some (pyStrip "12345".toList.asString) ∧
    _pick [tryPO1At] "hello".toList = none ∧
    extract_header_meta ["", ""] =
      { po_number := "N/A", vendor_number := "N/A", ship_by_date := "N/A",
        payment_terms := "N/A", total := "N/A", page_count := 2 } ∧
    (extract_header_meta ["Total $5.00", "x"]).total =
      orNA (some "5.00".toList.asString) := by
  refine ⟨?_, ?_, ?_, ?_⟩
  · exact claim_C6.2.2.1 tryPO1At [tryPO2At] "PO 12345".toList "12345".toList
      (by with_unfolding_all rfl)
  · exact claim_C6.2.2.2.1 [tryPO1At] "hello".toList
      (by intro p hp; rcases List.mem_singleton.mp hp with rfl
          with_unfolding_all rfl)
  · exact claim_C6.2.2.2.2.1 ["", ""] (by with_unfolding_all rfl)
      (by with_unfolding_all rfl) (by with_unfolding_all rfl)
      (by with_unfolding_all rfl) (by with_unfolding_all rfl)
      (by with_unfolding_all rfl) (by with_unfolding_all rfl)
      (by with_unfolding_all rfl)
      (by intro t ht
          rcases List.mem_cons.mp ht with rfl | ht2
          · with_unfolding_all rfl
          · rcases List.mem_singleton.mp ht2 with rfl
            with_unfolding_all rfl)
  · exact claim_C6.2.2.2.2.2 [] ["x"] "Total $5.00" "5.00".toList
      (by with_unfolding_all rfl)
      (by intro u hu; rcases List.mem_singleton.mp hu with rfl
          with_unfolding_all rfl)

/-- Counterexample for claim C8: on the spec §8 text the regex tier
yields NO rows — the SKU `ABCD12AB34-12-X1234-ABCDE` has a 10-character
first segment, which the pattern shape
`[A-Z0-9][A-Z]{2}\d{4}-...` (7 characters before the first dash) cannot
match — so it does not yield the claimed single row. -/
theorem claim_C8_counterexample :
    _extract_via_regex [c8Text] = [] ∧
    _extract_via_regex [c8Text] ≠ [c8ClaimRow] := by
  constructor
  · with_unfolding_all rfl
  · rw [show _extract_via_regex [c8Text] = [] by with_unfolding_all rfl]
    intro h
    cases h

/-- Every row the regex scan emits is built by `regexRowOf`, whose
`hts` field is the literal empty string. -/
theorem regexScan_hts : ∀ (fuel : Nat) (cs : List Char) (row : Row),
    row ∈ regexScan fuel cs → row.hts = "" := by
  have hsucc : ∀ (n : Nat) (cs : List Char),
      regexScan (n + 1) cs =
        match matchItemAt cs with
        | some (g, rest) => regexRowOf g :: regexScan n rest
        | none =>
          match cs with
          | [] => []
          | _ :: t => regexScan n t := fun n cs => rfl
  intro fuel
  induction fuel with
  | zero => intro cs row h; cases h
  | succ n ih =>
    intro cs row h
    rw [hsucc] at h
    cases hm : matchItemAt cs with
    | some gr =>
      obtain ⟨g, rest⟩ := gr
      rw [hm] at h
      rcases List.mem_cons.mp h with h | h
      · rw [h]; rfl
      · exact ih rest row h
    | none =>
      rw [hm] at h
      cases cs with
      | nil => cases h
      | cons c t => exact ih t row h

/-- Claim C8 (amended): with a SKU of the shape the pattern requires
(`AAB1234-12-X1234-ABCDE`), the analogous text yields exactly one row
with qty 2, dev `G1`, upc `012345678901`, empty hts, brand `ACME`,
description `Cool Thing`, rate 7.50, amount 15.00; and on every input
the regex tier emits only rows whose `hts_code` is the empty string. -/
theorem claim_C8 :
    _extract_via_regex [c8TextAmended] = [c8Row] ∧
    (∀ (pages : List String) (row : Row),
      row ∈ _extract_via_regex pages → row.hts = "") := by
  constructor
  · with_unfolding_all rfl
  · intro pages row h
    unfold _extract_via_regex _dedupe at h
    exact regexScan_hts _ _ row ((dedupeGo_sublist _ []).subset h)

/-- Witness for claim C8: the row extracted from the amended text indeed
carries an empty `hts_code`. -/
theorem claim_C8_witness : c8Row.hts = "" :=
  claim_C8.2 [c8TextAmended] c8Row
    (by rw [claim_C8.1]; exact List.mem_cons_self _ _)
